import Mathlib

/-!
# Verification of the ShieldMail explainability core

Shallow embedding of the explainability helpers of the frontend
(`hashString`, `generateTokenImpacts`, `generateWordHeatmap` in the
statistics dashboard component, and `validateInput` in `EmailInputForm.jsx`).

Modelling conventions:
* JavaScript strings are modelled as Lean `String` / `List Char`; a character
  code (`charCodeAt`) is `Char.toNat`.  This is exact for code points below
  `0x10000` (the Basic Multilingual Plane); astral characters, which JS sees
  as surrogate pairs, are outside the model.
* JavaScript numbers are modelled as exact rationals (`ℚ`); `toFixed(n)`
  is modelled as exact decimal rounding (round half away from zero, as the
  ECMAScript `toFixed` specification prescribes on the exact value).
* The 32-bit wraparound of `hash & hash` / `hash << 5` is modelled exactly
  with `toInt32` below.
* `String.prototype.toLowerCase` is modelled on its ASCII fragment
  (`A`–`Z` ↦ `a`–`z`, everything else unchanged), which covers every word
  of the indicator vocabularies.
-/

namespace ShieldMail

/-- ECMAScript `ToInt32`: reduce an integer to the 32-bit two's-complement
representative in `[-2^31, 2^31)`. -/
def toInt32 (n : ℤ) : ℤ := (n + 2 ^ 31) % 2 ^ 32 - 2 ^ 31

/-- The character class of the regular expression `\s` (ECMAScript WhiteSpace
and LineTerminator), which also is the set trimmed by `String.prototype.trim`. -/
def isWs (c : Char) : Bool :=
  c.toNat == 9 || c.toNat == 10 || c.toNat == 11 || c.toNat == 12 ||
  c.toNat == 13 || c.toNat == 32 || c.toNat == 160 || c.toNat == 0x1680 ||
  (0x2000 ≤ c.toNat && c.toNat ≤ 0x200a) ||
  c.toNat == 0x2028 || c.toNat == 0x2029 || c.toNat == 0x202f ||
  c.toNat == 0x205f || c.toNat == 0x3000 || c.toNat == 0xfeff

/-- ASCII fragment of `String.prototype.toLowerCase`, character by character. -/
def jsToLower (c : Char) : Char :=
  match c with
  | 'A' => 'a' | 'B' => 'b' | 'C' => 'c' | 'D' => 'd' | 'E' => 'e'
  | 'F' => 'f' | 'G' => 'g' | 'H' => 'h' | 'I' => 'i' | 'J' => 'j'
  | 'K' => 'k' | 'L' => 'l' | 'M' => 'm' | 'N' => 'n' | 'O' => 'o'
  | 'P' => 'p' | 'Q' => 'q' | 'R' => 'r' | 'S' => 's' | 'T' => 't'
  | 'U' => 'u' | 'V' => 'v' | 'W' => 'w' | 'X' => 'x' | 'Y' => 'y'
  | 'Z' => 'z'
  | other => other

/-- `String.prototype.trim`: drop whitespace from both ends. -/
def jsTrim (l : List Char) : List Char :=
  ((l.dropWhile isWs).reverse.dropWhile isWs).reverse

/-- One iteration of the loop body of `hashString`:
`hash = ((hash << 5) - hash) + char; hash = hash & hash`.
`hash << 5` is `toInt32 (hash * 32)`; the subtraction and the addition of the
character code are exact in a double for the magnitudes that occur; `hash & hash`
is `toInt32` of the result. -/
def hashStep (h : ℤ) (c : Char) : ℤ :=
  toInt32 (toInt32 (h * 32) - h + (c.toNat : ℤ))

/-- `hashString` from the source: fold `hashStep` over the characters starting
from `0`, then `Math.abs`. -/
def hashString (s : String) : ℕ :=
  (s.data.foldl hashStep 0).natAbs

/-- `text.substring(0, 50)`. -/
def takeFifty (text : String) : String := String.mk (text.data.take 50)

/-- One step of `String.prototype.split(/(\s+)/)`, prepending one character to
the split of the remaining text.  The accumulator always alternates
word piece, separator piece, word piece, …, starting and ending with a
(possibly empty) word piece. -/
def splitStep (c : Char) (acc : List (List Char)) : List (List Char) :=
  if isWs c then
    match acc with
    | [] :: s :: rest => [] :: (c :: s) :: rest
    | other => [] :: [c] :: other
  else
    match acc with
    | p :: rest => (c :: p) :: rest
    | [] => [[c]]

/-- `String.prototype.split(/(\s+)/)`: split into maximal whitespace runs and
maximal non-whitespace runs, keeping the (captured) separators, with an empty
word piece at an end that borders a separator, as ECMAScript `split` produces. -/
def splitWsCapture (l : List Char) : List (List Char) :=
  l.foldr splitStep [[]]

/-- The elements at even positions of a list. -/
def alternate {α : Type} : List α → List α
  | [] => []
  | [x] => [x]
  | x :: _ :: rest => x :: alternate rest

/-- `String.prototype.split(/\s+/)` (no capture group): the word pieces of the
captured split, i.e. its even positions. -/
def splitWsNoCapture (l : List Char) : List (List Char) :=
  alternate (splitWsCapture l)

/-- Pair every element with its index, starting at `i` (the `(word, index)`
arguments `Array.prototype.map` passes to its callback). -/
def enumFromJS {α : Type} : ℕ → List α → List (ℕ × α)
  | _, [] => []
  | i, a :: as => (i, a) :: enumFromJS (i + 1) as

/-- `SPAM_INDICATORS` from the source. -/
def SPAM_INDICATORS : List String :=
  ["winner", "prize", "free", "click", "urgent", "limited", "offer", "deal",
   "money", "cash", "win", "congratulations", "act now", "guaranteed",
   "http", "www", "buy now", "discount", "sale", "credit", "loan"]

/-- `HAM_INDICATORS` from the source. -/
def HAM_INDICATORS : List String :=
  ["meeting", "please", "thanks", "thank", "follow", "question", "discussion",
   "project", "team", "schedule", "agenda", "report", "review", "update"]

/-- `SPAM_INDICATORS` with the two multi-word entries `"act now"` and
`"buy now"` removed (for the reachability comparison). -/
def SPAM_INDICATORS_reduced : List String :=
  ["winner", "prize", "free", "click", "urgent", "limited", "offer", "deal",
   "money", "cash", "win", "congratulations", "guaranteed",
   "http", "www", "discount", "sale", "credit", "loan"]

/-- The integer denoted by `q.toFixed(d)` scaled by `10^d`: round half away
from zero, sign first, as the ECMAScript `Number.prototype.toFixed`
specification prescribes.  (`Rat.floor` is used rather than the `⌊ ⌋`
notation so that the definition evaluates by kernel reduction.) -/
def toFixedInt (q : ℚ) (d : ℕ) : ℤ :=
  if q < 0 then -(Rat.floor ((-q) * 10 ^ d + 1 / 2))
  else Rat.floor (q * 10 ^ d + 1 / 2)

/-- The rational value of the fixed-point decimal string `q.toFixed(3)`. -/
def toFixed3 (q : ℚ) : ℚ := (toFixedInt q 3 : ℚ) / 1000

/-- The rational value of the fixed-point decimal string `q.toFixed(2)`. -/
def toFixed2 (q : ℚ) : ℚ := (toFixedInt q 2 : ℚ) / 100

/-- An entry of the list returned by `generateTokenImpacts`.  The `impact` and
`weight` fields hold the values denoted by the fixed-point decimal strings
`impact.toFixed(3)` and `(…).toFixed(2)` of the source. -/
structure TokenImpact where
  token : String
  impact : ℚ
  weight : ℚ
  deriving DecidableEq, Repr

/-- `normalizedHash` of `generateTokenImpacts`:
`(hashString(word + text.substring(0, 50)) % 1000) / 1000`. -/
def normalizedHash (text w : String) : ℚ :=
  ((hashString (w ++ takeFifty text) % 1000 : ℕ) : ℚ) / 1000

/-- The `impact` computed for one token by the `.map` body of
`generateTokenImpacts`, before the final clamp, with the spam-indicator
vocabulary as a parameter.  This version idealises the `wordFreq` lookup as
the exact occurrence count; it agrees with the program for every token except
the two lower-case `Object.prototype` property names (see `jsWordFreq` and
`tokenImpactPreClampJS` for the lookup-faithful version) and is kept for the
results that do not depend on the frequency value. -/
def tokenImpactPreClamp (spam : List String) (text : String) (isSpam : Bool)
    (p : ℚ) (words : List String) (w : String) : ℚ :=
  if w ∈ spam then 15 / 100 + normalizedHash text w * (1 / 10)
  else if w ∈ HAM_INDICATORS then -(15 / 100) - normalizedHash text w * (1 / 10)
  else
    let freq : ℚ := (words.count w : ℚ) / (words.length : ℚ)
    let baseHash := normalizedHash text w - 1 / 2
    if isSpam then
      let probabilityBias := (p - 1 / 2) * (4 / 10)
      let i := baseHash * (12 / 100) + freq * (2 / 100) + probabilityBias
      if p > 7 / 10 then max (5 / 100) i else i
    else
      let probabilityBias := (1 / 2 - p) * (4 / 10)
      let i := baseHash * (12 / 100) - freq * (2 / 100) - probabilityBias
      if p < 3 / 10 then min (-(5 / 100)) i else i

/-- The `impact` computed for one token by the `.map` body of
`generateTokenImpacts`, including the final clamp
`Math.max(-0.3, Math.min(0.3, impact))`. -/
def tokenRawImpactWith (spam : List String) (text : String) (isSpam : Bool)
    (p : ℚ) (words : List String) (w : String) : ℚ :=
  max (-(3 / 10)) (min (3 / 10) (tokenImpactPreClamp spam text isSpam p words w))

/-- The weight computed for one token:
`wordFreq[word] * 10 + normalizedHash * 50` (before `toFixed(2)`), with the
`wordFreq` lookup idealised as the exact occurrence count (see
`tokenRawWeightJS` for the lookup-faithful version). -/
def tokenRawWeight (text : String) (words : List String) (w : String) : ℚ :=
  (words.count w : ℚ) * 10 + normalizedHash text w * 50

/-- The record built for one token by the `.map` body of
`generateTokenImpacts`. -/
def tokenEntry (spam : List String) (text : String) (isSpam : Bool) (p : ℚ)
    (words : List String) (w : String) : TokenImpact :=
  { token := w
    impact := toFixed3 (tokenRawImpactWith spam text isSpam p words w)
    weight := toFixed2 (tokenRawWeight text words w) }

/-- Deduplication keeping first occurrences (`[...new Set(words)]`),
with an accumulator of already seen elements. -/
def dedupFirstGo : List String → List String → List String
  | _, [] => []
  | seen, x :: xs =>
      if x ∈ seen then dedupFirstGo seen xs
      else x :: dedupFirstGo (x :: seen) xs

/-- `[...new Set(words)]`: the distinct elements in first-occurrence order. -/
def dedupFirst (l : List String) : List String := dedupFirstGo [] l

/-- Insert into a list sorted descending by `key`, before any element of equal
key (the stable position). -/
def insertD {α : Type} (key : α → ℚ) (x : α) : List α → List α
  | [] => [x]
  | y :: ys => if key y ≤ key x then x :: y :: ys else y :: insertD key x ys

/-- Stable sort, descending by `key` (the behaviour of
`Array.prototype.sort` with comparator `(a, b) => key b - key a`). -/
def sortD {α : Type} (key : α → ℚ) : List α → List α
  | [] => []
  | x :: xs => insertD key x (sortD key xs)

/-- `text.toLowerCase().split(/\s+/).filter(w => w.length > 2)`: the tokens
considered by `generateTokenImpacts`. -/
def consideredWords (text : String) : List String :=
  ((splitWsNoCapture (text.data.map jsToLower)).map String.mk).filter
    (fun w => 2 < w.length)

/-- `generateTokenImpacts` with the spam-indicator vocabulary as a parameter:
build one record per distinct token (in first-occurrence order, as
`[...new Set(words)]` produces), sort descending by the absolute value of the
(rounded) impact, keep the top 15. -/
def generateTokenImpactsWith (spam : List String) (text : String)
    (isSpam : Bool) (p : ℚ) : List TokenImpact :=
  (sortD (fun e => |e.impact|)
    ((dedupFirst (consideredWords text)).map
      (tokenEntry spam text isSpam p (consideredWords text)))).take 15

/-- `generateTokenImpacts` with the idealised (exact-count) `wordFreq`; it
agrees with the program on every input whose considered tokens exclude
`"constructor"` and `"__proto__"`.  `generateTokenImpactsJS` below is the
lookup-faithful embedding of the source function. -/
def generateTokenImpacts (text : String) (isSpam : Bool) (p : ℚ) :
    List TokenImpact :=
  generateTokenImpactsWith SPAM_INDICATORS text isSpam p

/-- A unit of the list returned by `generateWordHeatmap`. -/
structure HeatmapUnit where
  text : String
  index : ℕ
  importance : ℚ
  isSpam : Bool
  deriving DecidableEq, Repr

/-- The `importance` a heatmap word receives before the alignment boost:
`0.6 + (hash % 100) / 500` for indicator words (either vocabulary),
`((hash % 100) / 100) * 0.4` for neutral words. -/
def heatBaseImportance (spam : List String) (i : ℕ) (trimmedWord : String) : ℚ :=
  if trimmedWord ∈ spam then
    6 / 10 + ((hashString (trimmedWord ++ toString i) % 100 : ℕ) : ℚ) / 500
  else if trimmedWord ∈ HAM_INDICATORS then
    6 / 10 + ((hashString (trimmedWord ++ toString i) % 100 : ℕ) : ℚ) / 500
  else
    (((hashString (trimmedWord ++ toString i) % 100 : ℕ) : ℚ) / 100) * (4 / 10)

/-- The `isSpamIndicator` flag of a heatmap word: fixed by vocabulary
membership, otherwise a probability-dependent threshold on the normalized
hash (with the override thresholds for high-confidence predictions). -/
def heatIndicator (spam : List String) (isSpam : Bool) (p : ℚ) (i : ℕ)
    (trimmedWord : String) : Bool :=
  if trimmedWord ∈ spam then true
  else if trimmedWord ∈ HAM_INDICATORS then false
  else
    let nh : ℚ := ((hashString (trimmedWord ++ toString i) % 100 : ℕ) : ℚ) / 100
    if isSpam then
      if p > 8 / 10 then decide (nh > 35 / 100)
      else decide (nh > 55 / 100 - (p - 1 / 2) * (1 / 2))
    else
      if p < 2 / 10 then decide (nh > 65 / 100)
      else decide (nh > 45 / 100 + (1 / 2 - p) * (1 / 2))

/-- The alignment boost applied to a word importance: words agreeing with the
overall prediction get `min(1.0, importance * 1.5)`, contradicting words get
`importance * 0.6`. -/
def boost (isSpam ind : Bool) (x : ℚ) : ℚ :=
  if isSpam && ind then min 1 (x * (3 / 2))
  else if !isSpam && !ind then min 1 (x * (3 / 2))
  else x * (6 / 10)

/-- The `(importance, isSpamIndicator)` pair computed by the `.map` body of
`generateWordHeatmap` for one already trimmed and lower-cased word at index
`i`, with the spam-indicator vocabulary as a parameter.  The `else` branch is
the untouched initialisation `importance = 0`, `isSpamIndicator = false`. -/
def heatCore (spam : List String) (isSpam : Bool) (p : ℚ) (i : ℕ)
    (trimmedWord : String) : ℚ × Bool :=
  if 2 < trimmedWord.length then
    (boost isSpam (heatIndicator spam isSpam p i trimmedWord)
       (heatBaseImportance spam i trimmedWord),
     heatIndicator spam isSpam p i trimmedWord)
  else (0, false)

/-- The `.map` body of `generateWordHeatmap` for one `(word, index)` pair:
trim and lower-case the unit, compute `(importance, isSpamIndicator)` with
`heatCore`, return the unit verbatim with its annotations. -/
def heatUnit (spam : List String) (isSpam : Bool) (p : ℚ) (i : ℕ)
    (word : String) : HeatmapUnit :=
  { text := word
    index := i
    importance :=
      (heatCore spam isSpam p i (String.mk ((jsTrim word.data).map jsToLower))).1
    isSpam :=
      (heatCore spam isSpam p i (String.mk ((jsTrim word.data).map jsToLower))).2 }

/-- `generateWordHeatmap` with the spam-indicator vocabulary as a parameter:
split preserving whitespace runs and map `heatUnit` over the indexed pieces. -/
def generateWordHeatmapWith (spam : List String) (text : String)
    (isSpam : Bool) (p : ℚ) : List HeatmapUnit :=
  (enumFromJS 0 ((splitWsCapture text.data).map String.mk)).map
    (fun iw => heatUnit spam isSpam p iw.1 iw.2)

/-- `generateWordHeatmap` from the source. -/
def generateWordHeatmap (text : String) (isSpam : Bool) (p : ℚ) :
    List HeatmapUnit :=
  generateWordHeatmapWith SPAM_INDICATORS text isSpam p

/-- `validateInput` from `EmailInputForm.jsx`: `some message` models a returned
error string, `none` models `null`. -/
def validateInput (value : String) : Option String :=
  if value = "" ∨ String.mk (jsTrim value.data) = "" then
    some "Email text cannot be empty"
  else if 50000 < value.length then
    some "Email text must be less than 50,000 characters"
  else
    none

/-- Concatenation of a list of strings, in order. -/
def joinAll (l : List String) : String := l.foldr (fun a b => a ++ b) ""

/-! ## The real `wordFreq` lookup: a plain `{}` inherits `Object.prototype` -/

/-- The property names of `Object.prototype` that consist only of characters
unchanged by `toLowerCase`, hence can coincide with a lower-cased token.
For such a token `w`, `wordFreq[w] || 0` starts from an inherited truthy
value instead of `0`: for `"constructor"` the accumulated value becomes a
non-numeric string (`Object + 1`), and for `"__proto__"` the write is
swallowed by the inherited accessor, leaving `Object.prototype` itself as
the value.  Either way `ToNumber` of the stored value is NaN.  (Every other
`Object.prototype` name — `toString`, `valueOf`, `hasOwnProperty`, … —
contains an upper-case letter and cannot equal a lower-cased token.) -/
def protoTokens : List String := ["constructor", "__proto__"]

/-- The value of `wordFreq[w]` as a number: `none` models a NaN-producing
(non-numeric) entry, `some k` the exact occurrence count the loop builds for
every ordinary token. -/
def jsWordFreq (words : List String) (w : String) : Option ℚ :=
  if w ∈ protoTokens then none else some ((words.count w : ℕ) : ℚ)

/-- An entry of the list returned by `generateTokenImpacts`, with NaN
representable: `impact`/`weight` are `some` of the fixed-point decimal value
of the `toFixed` string, or `none` for the string `"NaN"`. -/
structure TokenImpactJS where
  token : String
  impact : Option ℚ
  weight : Option ℚ
  deriving DecidableEq, Repr

/-- Lookup-faithful pre-clamp impact: in the non-indicator branch
`freq = wordFreq[word] / words.length` is NaN when the lookup is non-numeric,
and NaN propagates through every `+`, `*`, `Math.max` and `Math.min` of the
branch, so the whole branch is NaN (`none`) in that case.  The vocabulary
branches never read `wordFreq`. -/
def tokenImpactPreClampJS (spam : List String) (text : String) (isSpam : Bool)
    (p : ℚ) (words : List String) (w : String) : Option ℚ :=
  if w ∈ spam then some (15 / 100 + normalizedHash text w * (1 / 10))
  else if w ∈ HAM_INDICATORS then
    some (-(15 / 100) - normalizedHash text w * (1 / 10))
  else
    match jsWordFreq words w with
    | none => none
    | some cnt =>
      let freq : ℚ := cnt / (words.length : ℚ)
      let baseHash := normalizedHash text w - 1 / 2
      some (
        if isSpam then
          let probabilityBias := (p - 1 / 2) * (4 / 10)
          let i := baseHash * (12 / 100) + freq * (2 / 100) + probabilityBias
          if p > 7 / 10 then max (5 / 100) i else i
        else
          let probabilityBias := (1 / 2 - p) * (4 / 10)
          let i := baseHash * (12 / 100) - freq * (2 / 100) - probabilityBias
          if p < 3 / 10 then min (-(5 / 100)) i else i)

/-- Lookup-faithful clamped impact: `Math.max(-0.3, Math.min(0.3, NaN))` is
NaN, so the clamp maps over the option. -/
def tokenRawImpactJS (spam : List String) (text : String) (isSpam : Bool)
    (p : ℚ) (words : List String) (w : String) : Option ℚ :=
  (tokenImpactPreClampJS spam text isSpam p words w).map
    (fun q => max (-(3 / 10)) (min (3 / 10) q))

/-- Lookup-faithful weight: `wordFreq[word] * 10 + normalizedHash * 50` is
NaN whenever the lookup is. -/
def tokenRawWeightJS (text : String) (words : List String) (w : String) :
    Option ℚ :=
  (jsWordFreq words w).map (fun cnt => cnt * 10 + normalizedHash text w * 50)

/-- The record built for one token by the `.map` body, lookup-faithful:
`NaN.toFixed(n)` is the string `"NaN"`, modelled by `none`. -/
def tokenEntryJS (spam : List String) (text : String) (isSpam : Bool) (p : ℚ)
    (words : List String) (w : String) : TokenImpactJS :=
  { token := w
    impact := (tokenRawImpactJS spam text isSpam p words w).map toFixed3
    weight := (tokenRawWeightJS text words w).map toFixed2 }

/-- The comparator `(a, b) => Math.abs(parseFloat(b.impact)) -
Math.abs(parseFloat(a.impact))` as `SortCompare` sees it: `parseFloat "NaN"`
is NaN, `Math.abs NaN` is NaN, the subtraction is then NaN, and the
ECMAScript `SortCompare` maps a NaN comparator result to `+0` — so any
comparison involving a `"NaN"` impact is a tie. -/
def jsSortCompare (a b : TokenImpactJS) : ℚ :=
  match a.impact, b.impact with
  | some x, some y => |y| - |x|
  | _, _ => 0

/-- Stable insertion with respect to a numeric comparator: `x` is placed
before the first element it does not compare strictly after. -/
def insertJS {α : Type} (cmp : α → α → ℚ) (x : α) : List α → List α
  | [] => [x]
  | y :: ys => if cmp x y ≤ 0 then x :: y :: ys else y :: insertJS cmp x ys

/-- Stable sort with respect to a numeric comparator.  This agrees with
`Array.prototype.sort` for every consistent comparator; for the NaN-tie
comparator above the ECMAScript result is implementation-defined, and this
model commits to the stable behaviour in which tied elements keep their
original order (which is the only behaviour a stable sort can exhibit on a
two-element tie). -/
def sortJS {α : Type} (cmp : α → α → ℚ) : List α → List α
  | [] => []
  | x :: xs => insertJS cmp x (sortJS cmp xs)

/-- `generateTokenImpacts` from the source, with the `wordFreq` prototype
chain modelled faithfully. -/
def generateTokenImpactsJS (text : String) (isSpam : Bool) (p : ℚ) :
    List TokenImpactJS :=
  (sortJS jsSortCompare
    ((dedupFirst (consideredWords text)).map
      (tokenEntryJS SPAM_INDICATORS text isSpam p (consideredWords text)))).take 15

/-- The embedding of an idealised entry into the NaN-aware entry type. -/
def liftEntry (e : TokenImpact) : TokenImpactJS :=
  { token := e.token, impact := some e.impact, weight := some e.weight }

/-! ## Arithmetic facts about the 32-bit hash -/

lemma toInt32_add_left (x y : ℤ) : toInt32 (toInt32 x + y) = toInt32 (x + y) := by
  unfold toInt32
  omega

lemma hashStep_spec (h : ℤ) (c : Char) :
    hashStep h c = toInt32 (31 * h + (c.toNat : ℤ)) := by
  unfold hashStep
  have h1 : toInt32 (h * 32) - h + (c.toNat : ℤ)
      = toInt32 (h * 32) + (-h + (c.toNat : ℤ)) := by ring
  rw [h1, toInt32_add_left]
  congr 1
  ring

lemma foldl_hashStep_spec (l : List Char) :
    ∀ a : ℤ, l.foldl hashStep a
      = l.foldl (fun h c => toInt32 (31 * h + (c.toNat : ℤ))) a := by
  induction l with
  | nil => intro a; rfl
  | cons c t ih => intro a; simp only [List.foldl_cons, hashStep_spec, ih]

/-- Claim C2: `hashString(s)` is the absolute value of the fold
`h := (h * 31 + code c)` over the characters of `s`, computed in wraparound
32-bit signed two's-complement arithmetic. -/
theorem claim_C2_hashString (s : String) :
    hashString s
      = (s.data.foldl (fun h c => toInt32 (31 * h + (c.toNat : ℤ))) 0).natAbs := by
  unfold hashString
  rw [foldl_hashStep_spec]

/-! ## Determinism -/

/-- Claim C1: `generateTokenImpacts` and `generateWordHeatmap` are
deterministic: two calls with identical `(text, is_spam, spam_probability)`
return identical output, including the order of entries.  In this embedding
both are pure functions, so the two calls are literally the same value. -/
theorem claim_C1_determinism (text : String) (isSpam : Bool) (p : ℚ) :
    generateTokenImpacts text isSpam p = generateTokenImpacts text isSpam p ∧
    generateWordHeatmap text isSpam p = generateWordHeatmap text isSpam p :=
  ⟨rfl, rfl⟩

/-! ## Heatmap units concatenate back to the input -/

lemma join_splitStep (c : Char) (acc : List (List Char)) :
    (splitStep c acc).flatten = c :: acc.flatten := by
  unfold splitStep
  cases hw : isWs c
  · rcases acc with _ | ⟨w, tail⟩ <;> simp
  · rcases acc with _ | ⟨_ | ⟨a, w⟩, _ | ⟨s, rest⟩⟩ <;> simp

lemma join_splitWsCapture (l : List Char) : (splitWsCapture l).flatten = l := by
  unfold splitWsCapture
  induction l with
  | nil => rfl
  | cons c t ih => rw [List.foldr_cons, join_splitStep, ih]

lemma heatUnit_text (spam : List String) (isSpam : Bool) (p : ℚ) (i : ℕ)
    (word : String) : (heatUnit spam isSpam p i word).text = word := rfl

lemma map_snd_enumFromJS {α : Type} :
    ∀ (i : ℕ) (l : List α), (enumFromJS i l).map Prod.snd = l := by
  intro i l
  induction l generalizing i with
  | nil => rfl
  | cons a t ih => simp [enumFromJS, ih]

lemma mk_append (x y : List Char) :
    String.mk x ++ String.mk y = String.mk (x ++ y) := rfl

lemma joinAll_map_mk (ll : List (List Char)) :
    joinAll (ll.map String.mk) = String.mk ll.flatten := by
  induction ll with
  | nil => rfl
  | cons a t ih =>
    simp only [List.map_cons, joinAll, List.foldr_cons, List.flatten_cons]
    rw [show (t.map String.mk).foldr (fun a b => a ++ b) "" = joinAll (t.map String.mk) from rfl,
      ih, mk_append]

/-- Claim C3: concatenating the `text` fields of all heatmap units, in order,
reconstructs the input string exactly. -/
theorem claim_C3_heatmap_concat (text : String) (isSpam : Bool) (p : ℚ) :
    joinAll ((generateWordHeatmap text isSpam p).map HeatmapUnit.text) = text := by
  unfold generateWordHeatmap generateWordHeatmapWith
  rw [List.map_map]
  have h1 : (HeatmapUnit.text ∘ fun iw : ℕ × String =>
      heatUnit SPAM_INDICATORS isSpam p iw.1 iw.2) = Prod.snd := by
    funext iw
    exact heatUnit_text _ _ _ _ _
  rw [h1, map_snd_enumFromJS, joinAll_map_mk, join_splitWsCapture]

/-! ## The sort: membership and sortedness -/

lemma mem_insertD {α : Type} (key : α → ℚ) (x z : α) :
    ∀ l : List α, z ∈ insertD key x l → z = x ∨ z ∈ l := by
  intro l
  induction l with
  | nil =>
    intro h
    simp [insertD] at h
    exact Or.inl h
  | cons y ys ih =>
    intro h
    rw [insertD] at h
    split at h
    · rcases List.mem_cons.mp h with h | h
      · exact Or.inl h
      · exact Or.inr h
    · simp only [List.mem_cons] at h
      rcases h with h | h
      · right
        simp [h]
      · rcases ih h with h | h
        · exact Or.inl h
        · right
          simp [h]

lemma mem_sortD {α : Type} (key : α → ℚ) (z : α) :
    ∀ l : List α, z ∈ sortD key l → z ∈ l := by
  intro l
  induction l with
  | nil => intro h; simpa [sortD] using h
  | cons x xs ih =>
    intro h
    rw [sortD] at h
    rcases mem_insertD key x z _ h with h | h
    · simp [h]
    · simp [ih h]

lemma pairwise_insertD {α : Type} (key : α → ℚ) (x : α) :
    ∀ {l : List α}, l.Pairwise (fun a b => key b ≤ key a) →
      (insertD key x l).Pairwise (fun a b => key b ≤ key a) := by
  intro l
  induction l with
  | nil => intro _; simp [insertD]
  | cons y ys ih =>
    intro hp
    rcases List.pairwise_cons.mp hp with ⟨hy, hys⟩
    rw [insertD]
    split
    case isTrue hk =>
      refine List.pairwise_cons.mpr ⟨?_, hp⟩
      intro z hz
      rcases List.mem_cons.mp hz with rfl | hz
      · exact hk
      · exact le_trans (hy z hz) hk
    case isFalse hk =>
      refine List.pairwise_cons.mpr ⟨?_, ih hys⟩
      intro z hz
      rcases mem_insertD key x z ys hz with rfl | hz
      · exact le_of_not_le hk
      · exact hy z hz

lemma pairwise_sortD {α : Type} (key : α → ℚ) :
    ∀ l : List α, (sortD key l).Pairwise (fun a b => key b ≤ key a) := by
  intro l
  induction l with
  | nil => simp [sortD]
  | cons x xs ih => exact pairwise_insertD key x ih

lemma mem_generateTokenImpactsWith (spam : List String) (text : String)
    (isSpam : Bool) (p : ℚ) (e : TokenImpact)
    (h : e ∈ generateTokenImpactsWith spam text isSpam p) :
    ∃ w, w ∈ dedupFirst (consideredWords text) ∧
      e = tokenEntry spam text isSpam p (consideredWords text) w := by
  unfold generateTokenImpactsWith at h
  have h1 := List.take_subset _ _ h
  have h2 := mem_sortD _ _ _ h1
  rcases List.mem_map.mp h2 with ⟨w, hw, he⟩
  exact ⟨w, hw, he.symm⟩

lemma mem_generateWordHeatmapWith (spam : List String) (text : String)
    (isSpam : Bool) (p : ℚ) (u : HeatmapUnit)
    (h : u ∈ generateWordHeatmapWith spam text isSpam p) :
    ∃ i w, u = heatUnit spam isSpam p i w := by
  unfold generateWordHeatmapWith at h
  rcases List.mem_map.mp h with ⟨iw, _, he⟩
  exact ⟨iw.1, iw.2, he.symm⟩

lemma generateTokenImpactsWith_sorted (spam : List String) (text : String)
    (isSpam : Bool) (p : ℚ) :
    (generateTokenImpactsWith spam text isSpam p).Pairwise
      (fun a b => |b.impact| ≤ |a.impact|) := by
  have hs := pairwise_sortD (fun e : TokenImpact => |e.impact|)
    ((dedupFirst (consideredWords text)).map
      (tokenEntry spam text isSpam p (consideredWords text)))
  unfold generateTokenImpactsWith
  exact List.Pairwise.sublist (List.take_sublist _ _) hs

/-! ## Range bounds -/

lemma hash100_le (s : String) : ((hashString s % 100 : ℕ) : ℚ) ≤ 99 := by
  have h : hashString s % 100 ≤ 99 := by
    have := Nat.mod_lt (hashString s) (show 0 < 100 by norm_num)
    omega
  exact_mod_cast h

lemma hash1000_le (s : String) : ((hashString s % 1000 : ℕ) : ℚ) ≤ 999 := by
  have h : hashString s % 1000 ≤ 999 := by
    have := Nat.mod_lt (hashString s) (show 0 < 1000 by norm_num)
    omega
  exact_mod_cast h

lemma hashPct_nonneg (s : String) (k : ℕ) :
    (0 : ℚ) ≤ ((hashString s % k : ℕ) : ℚ) := by positivity

lemma tokenRawImpactWith_bounds (spam : List String) (text : String)
    (isSpam : Bool) (p : ℚ) (words : List String) (w : String) :
    -(3 / 10) ≤ tokenRawImpactWith spam text isSpam p words w ∧
      tokenRawImpactWith spam text isSpam p words w ≤ 3 / 10 := by
  unfold tokenRawImpactWith
  refine ⟨le_max_left _ _, max_le (by norm_num) (min_le_left _ _)⟩

lemma rat_floor_eq_floor (q : ℚ) : Rat.floor q = ⌊q⌋ := by
  rw [Rat.floor_def', Rat.floor_def]

lemma toFixed3_bounds {q : ℚ} (h1 : -(3 / 10) ≤ q) (h2 : q ≤ 3 / 10) :
    -(3 / 10) ≤ toFixed3 q ∧ toFixed3 q ≤ 3 / 10 := by
  unfold toFixed3 toFixedInt
  rw [rat_floor_eq_floor, rat_floor_eq_floor]
  split
  case isTrue hq =>
    have hub : ⌊(-q) * 10 ^ 3 + 1 / 2⌋ ≤ 300 := by
      have : (-q) * 10 ^ 3 + 1 / 2 < (301 : ℤ) := by
        push_cast
        nlinarith
      have := Int.floor_lt.mpr this
      omega
    have hlb : 0 ≤ ⌊(-q) * 10 ^ 3 + 1 / 2⌋ := by
      apply Int.le_floor.mpr
      push_cast
      nlinarith
    have hubq : ((⌊(-q) * 10 ^ 3 + 1 / 2⌋ : ℤ) : ℚ) ≤ 300 := by exact_mod_cast hub
    have hlbq : (0 : ℚ) ≤ ((⌊(-q) * 10 ^ 3 + 1 / 2⌋ : ℤ) : ℚ) := by exact_mod_cast hlb
    constructor
    · push_cast
      linarith
    · push_cast
      linarith
  case isFalse hq =>
    have hub : ⌊q * 10 ^ 3 + 1 / 2⌋ ≤ 300 := by
      have : q * 10 ^ 3 + 1 / 2 < (301 : ℤ) := by
        push_cast
        nlinarith
      have := Int.floor_lt.mpr this
      omega
    have hlb : 0 ≤ ⌊q * 10 ^ 3 + 1 / 2⌋ := by
      apply Int.le_floor.mpr
      push_cast
      nlinarith [le_of_not_lt hq]
    have hubq : ((⌊q * 10 ^ 3 + 1 / 2⌋ : ℤ) : ℚ) ≤ 300 := by exact_mod_cast hub
    have hlbq : (0 : ℚ) ≤ ((⌊q * 10 ^ 3 + 1 / 2⌋ : ℤ) : ℚ) := by exact_mod_cast hlb
    constructor
    · push_cast
      linarith
    · push_cast
      linarith

lemma boost_bounds (isSpam ind : Bool) {x : ℚ} (h0 : 0 ≤ x) (h1 : x ≤ 1) :
    0 ≤ boost isSpam ind x ∧ boost isSpam ind x ≤ 1 := by
  unfold boost
  split_ifs
  · exact ⟨le_min (by norm_num) (by linarith), min_le_left _ _⟩
  · exact ⟨le_min (by norm_num) (by linarith), min_le_left _ _⟩
  · constructor <;> linarith

lemma heatBaseImportance_bounds (spam : List String) (i : ℕ)
    (trimmedWord : String) :
    0 ≤ heatBaseImportance spam i trimmedWord ∧
      heatBaseImportance spam i trimmedWord ≤ 1 := by
  unfold heatBaseImportance
  have hle := hash100_le (trimmedWord ++ toString i)
  have hge := hashPct_nonneg (trimmedWord ++ toString i) 100
  split_ifs <;> constructor <;> linarith

lemma heatCore_importance_bounds (spam : List String) (isSpam : Bool) (p : ℚ)
    (i : ℕ) (trimmedWord : String) :
    0 ≤ (heatCore spam isSpam p i trimmedWord).1 ∧
      (heatCore spam isSpam p i trimmedWord).1 ≤ 1 := by
  unfold heatCore
  split
  · rcases heatBaseImportance_bounds spam i trimmedWord with ⟨h0, h1⟩
    exact boost_bounds _ _ h0 h1
  · norm_num

/-! ## Indicator tokens -/

lemma normalizedHash_nonneg (text w : String) : 0 ≤ normalizedHash text w := by
  unfold normalizedHash
  positivity

lemma normalizedHash_le (text w : String) :
    normalizedHash text w ≤ 999 / 1000 := by
  unfold normalizedHash
  have := hash1000_le (w ++ takeFifty text)
  linarith

lemma ham_not_spam {w : String} (hw : w ∈ HAM_INDICATORS) :
    w ∉ SPAM_INDICATORS := by
  intro hs
  simp only [HAM_INDICATORS, List.mem_cons, List.not_mem_nil, or_false] at hw
  rcases hw with rfl | rfl | rfl | rfl | rfl | rfl | rfl | rfl | rfl | rfl |
    rfl | rfl | rfl | rfl <;> exact absurd hs (by decide)

/-- Claim C6: a considered token in the spam-indicator vocabulary receives
impact `0.15 + normalized * 0.10` (strictly positive); a considered token in
the legitimate-indicator vocabulary receives impact
`-0.15 - normalized * 0.10` (strictly negative), where
`normalized = (hashString(token + first 50 chars of text) % 1000) / 1000`. -/
theorem claim_C6_indicator_impacts (text : String) (isSpam : Bool) (p : ℚ)
    (w : String) (hw : w ∈ consideredWords text) :
    (w ∈ SPAM_INDICATORS →
      tokenRawImpactWith SPAM_INDICATORS text isSpam p (consideredWords text) w
          = 15 / 100 + normalizedHash text w * (1 / 10) ∧
        0 < tokenRawImpactWith SPAM_INDICATORS text isSpam p
          (consideredWords text) w) ∧
    (w ∈ HAM_INDICATORS →
      tokenRawImpactWith SPAM_INDICATORS text isSpam p (consideredWords text) w
          = -(15 / 100) - normalizedHash text w * (1 / 10) ∧
        tokenRawImpactWith SPAM_INDICATORS text isSpam p
          (consideredWords text) w < 0) := by
  have h0 := normalizedHash_nonneg text w
  have h9 := normalizedHash_le text w
  constructor
  · intro hs
    have hpre : tokenImpactPreClamp SPAM_INDICATORS text isSpam p
        (consideredWords text) w = 15 / 100 + normalizedHash text w * (1 / 10) := by
      unfold tokenImpactPreClamp
      rw [if_pos hs]
    have hval : tokenRawImpactWith SPAM_INDICATORS text isSpam p
        (consideredWords text) w = 15 / 100 + normalizedHash text w * (1 / 10) := by
      unfold tokenRawImpactWith
      rw [hpre, min_eq_right (by linarith), max_eq_right (by linarith)]
    exact ⟨hval, by rw [hval]; linarith⟩
  · intro hh
    have hns := ham_not_spam hh
    have hpre : tokenImpactPreClamp SPAM_INDICATORS text isSpam p
        (consideredWords text) w
          = -(15 / 100) - normalizedHash text w * (1 / 10) := by
      unfold tokenImpactPreClamp
      rw [if_neg hns, if_pos hh]
    have hval : tokenRawImpactWith SPAM_INDICATORS text isSpam p
        (consideredWords text) w
          = -(15 / 100) - normalizedHash text w * (1 / 10) := by
      unfold tokenRawImpactWith
      rw [hpre, min_eq_right (by linarith), max_eq_right (by linarith)]
    exact ⟨hval, by rw [hval]; linarith⟩

/-- Witness for claim C6 at a concrete input. -/
theorem claim_C6_indicator_impacts_witness :
    ("free" ∈ consideredWords "free meeting" ∧ "free" ∈ SPAM_INDICATORS ∧
     "meeting" ∈ consideredWords "free meeting" ∧
     "meeting" ∈ HAM_INDICATORS) ∧
    (tokenRawImpactWith SPAM_INDICATORS "free meeting" true (1 / 2)
        (consideredWords "free meeting") "free"
        = 15 / 100 + normalizedHash "free meeting" "free" * (1 / 10) ∧
      0 < tokenRawImpactWith SPAM_INDICATORS "free meeting" true (1 / 2)
        (consideredWords "free meeting") "free") ∧
    (tokenRawImpactWith SPAM_INDICATORS "free meeting" true (1 / 2)
        (consideredWords "free meeting") "meeting"
        = -(15 / 100) - normalizedHash "free meeting" "meeting" * (1 / 10) ∧
      tokenRawImpactWith SPAM_INDICATORS "free meeting" true (1 / 2)
        (consideredWords "free meeting") "meeting" < 0) :=
  ⟨⟨by decide, by decide, by decide, by decide⟩,
   (claim_C6_indicator_impacts "free meeting" true (1 / 2) "free"
      (by decide)).1 (by decide),
   (claim_C6_indicator_impacts "free meeting" true (1 / 2) "meeting"
      (by decide)).2 (by decide)⟩

/-! ## Input validation -/

lemma dropWhile_head_false {p : Char → Bool} :
    ∀ {l : List Char} {a : Char} {t : List Char},
      l.dropWhile p = a :: t → p a = false := by
  intro l
  induction l with
  | nil => intro a t h; simp [List.dropWhile] at h
  | cons x xs ih =>
    intro a t h
    rw [List.dropWhile_cons] at h
    split at h
    · exact ih h
    case isFalse hpx =>
      cases h
      simpa using hpx

lemma all_ws_of_jsTrim_nil {l : List Char} (h : jsTrim l = []) :
    l.all isWs = true := by
  unfold jsTrim at h
  rw [List.reverse_eq_nil_iff] at h
  cases hd : l.dropWhile isWs with
  | nil =>
    rw [List.dropWhile_eq_nil_iff] at hd
    simpa [List.all_eq_true] using hd
  | cons a t =>
    exfalso
    have h1 : isWs a = false := dropWhile_head_false hd
    rw [List.dropWhile_eq_nil_iff] at h
    have h2 : a ∈ (l.dropWhile isWs).reverse := by
      rw [hd]
      simp
    have := h a h2
    rw [h1] at this
    exact Bool.false_ne_true this

lemma jsTrim_nil_of_all_ws {l : List Char} (h : l.all isWs = true) :
    jsTrim l = [] := by
  unfold jsTrim
  have h1 : l.dropWhile isWs = [] := by
    rw [List.dropWhile_eq_nil_iff]
    intro x hx
    exact List.all_eq_true.mp h x hx
  rw [h1]
  rfl

/-- Claim C7: `validateInput` returns `null` exactly on strings that are not
empty or whitespace-only and have length at most 50,000 code units; on every
other string it returns an error message. -/
theorem claim_C7_validateInput (value : String) :
    validateInput value = none ↔
      (value.data.all isWs = false ∧ value.length ≤ 50000) := by
  unfold validateInput
  split_ifs with h1 h2
  · simp only [reduceCtorEq, false_iff, not_and]
    intro hall
    rcases h1 with h1 | h1
    · subst h1
      simp at hall
    · have : jsTrim value.data = [] := by
        have := congrArg String.data h1
        simpa using this
      have := all_ws_of_jsTrim_nil this
      rw [hall] at this
      exact absurd this Bool.false_ne_true
  · simp only [reduceCtorEq, false_iff, not_and]
    intro _
    have : value.length = value.data.length := rfl
    omega
  · simp only [true_iff]
    constructor
    · cases hb : value.data.all isWs
      · rfl
      · exfalso
        exact h1 (Or.inr (by rw [jsTrim_nil_of_all_ws hb]))
    · have : value.length = value.data.length := rfl
      omega

/-! ## Short heatmap units -/

lemma heatCore_short (spam : List String) (isSpam : Bool) (p : ℚ) (i : ℕ)
    {trimmedWord : String} (h : ¬ 2 < trimmedWord.length) :
    heatCore spam isSpam p i trimmedWord = (0, false) := by
  unfold heatCore
  rw [if_neg h]

/-- Claim C9: every heatmap unit whose trimmed lower-cased form has length at
most 2 — whitespace runs and short words such as `"a"` or `"to"` alike — is
returned with `importance = 0` and `isSpam = false`. -/
theorem claim_C9_short_units (text : String) (isSpam : Bool) (p : ℚ)
    (u : HeatmapUnit) (hu : u ∈ generateWordHeatmap text isSpam p)
    (hlen : (String.mk ((jsTrim u.text.data).map jsToLower)).length ≤ 2) :
    u.importance = 0 ∧ u.isSpam = false := by
  rcases mem_generateWordHeatmapWith _ _ _ _ _ hu with ⟨i, w, rfl⟩
  have hlen2 : ¬ 2 <
      (String.mk ((jsTrim w.data).map jsToLower)).length := Nat.not_lt.mpr hlen
  have h2 := heatCore_short SPAM_INDICATORS isSpam p i hlen2
  exact ⟨congrArg Prod.fst h2, congrArg Prod.snd h2⟩

set_option maxRecDepth 100000 in
unseal Rat.add Rat.mul Rat.sub Rat.inv in
/-- Witness for claim C9 at a concrete input. -/
theorem claim_C9_short_units_witness :
    ((⟨"a", 0, 0, false⟩ : HeatmapUnit) ∈ generateWordHeatmap "a b" true (1 / 2) ∧
      (String.mk ((jsTrim (HeatmapUnit.text ⟨"a", 0, 0, false⟩).data).map
        jsToLower)).length ≤ 2) ∧
    ((0 : ℚ) = 0 ∧ false = false) :=
  ⟨⟨by decide, by decide⟩,
   claim_C9_short_units "a b" true (1 / 2) ⟨"a", 0, 0, false⟩
     (by decide) (by decide)⟩

/-! ## Fixed-point output fields and the sort key -/

lemma mul_toFixed3_den (q : ℚ) : (1000 * toFixed3 q).den = 1 := by
  unfold toFixed3
  have : 1000 * ((toFixedInt q 3 : ℤ) : ℚ) / 1000 = ((toFixedInt q 3 : ℤ) : ℚ) := by
    ring
  rw [mul_div_assoc] at this
  rw [this, Rat.den_intCast]

lemma mul_toFixed2_den (q : ℚ) : (100 * toFixed2 q).den = 1 := by
  unfold toFixed2
  have : 100 * ((toFixedInt q 2 : ℤ) : ℚ) / 100 = ((toFixedInt q 2 : ℤ) : ℚ) := by
    ring
  rw [mul_div_assoc] at this
  rw [this, Rat.den_intCast]

/-! ## Unreachable multi-word vocabulary entries -/

/-- Well-formedness of the split produced by `splitWsCapture`: pieces
alternate between whitespace-free word pieces and all-whitespace separator
pieces, starting with a word piece. -/
inductive AltRuns : List (List Char) → Prop where
  | nil : AltRuns []
  | last : ∀ w, (∀ c ∈ w, isWs c = false) → AltRuns [w]
  | cons : ∀ w s rest, (∀ c ∈ w, isWs c = false) → (∀ c ∈ s, isWs c = true) →
      AltRuns rest → AltRuns (w :: s :: rest)

lemma altRuns_splitStep (c : Char) {acc : List (List Char)} (h : AltRuns acc) :
    AltRuns (splitStep c acc) := by
  unfold splitStep
  cases hw : isWs c
  · cases h with
    | nil =>
      exact AltRuns.last [c]
        (by intro x hx; rcases List.mem_singleton.mp hx with rfl; exact hw)
    | last w hww =>
      refine AltRuns.last (c :: w) ?_
      intro x hx
      rcases List.mem_cons.mp hx with rfl | hx
      · exact hw
      · exact hww x hx
    | cons w s rest hww hs hrest =>
      refine AltRuns.cons (c :: w) s rest ?_ hs hrest
      intro x hx
      rcases List.mem_cons.mp hx with rfl | hx
      · exact hw
      · exact hww x hx
  · cases h with
    | nil =>
      exact AltRuns.cons [] [c] [] (by simp)
        (by intro x hx; rcases List.mem_singleton.mp hx with rfl; exact hw)
        AltRuns.nil
    | last w hww =>
      rcases w with _ | ⟨a, w⟩
      · exact AltRuns.cons [] [c] [[]] (by simp)
          (by intro x hx; rcases List.mem_singleton.mp hx with rfl; exact hw)
          (AltRuns.last [] (by simp))
      · exact AltRuns.cons [] [c] [a :: w] (by simp)
          (by intro x hx; rcases List.mem_singleton.mp hx with rfl; exact hw)
          (AltRuns.last (a :: w) hww)
    | cons w s rest hww hs hrest =>
      rcases w with _ | ⟨a, w⟩
      · refine AltRuns.cons [] (c :: s) rest (by simp) ?_ hrest
        intro x hx
        rcases List.mem_cons.mp hx with rfl | hx
        · exact hw
        · exact hs x hx
      · exact AltRuns.cons [] [c] ((a :: w) :: s :: rest) (by simp)
          (by intro x hx; rcases List.mem_singleton.mp hx with rfl; exact hw)
          (AltRuns.cons (a :: w) s rest hww hs hrest)

lemma altRuns_splitWsCapture (l : List Char) : AltRuns (splitWsCapture l) := by
  unfold splitWsCapture
  induction l with
  | nil => exact AltRuns.last [] (by simp)
  | cons c t ih =>
    rw [List.foldr_cons]
    exact altRuns_splitStep c ih

lemma no_ws_of_mem_alternate {rs : List (List Char)} (h : AltRuns rs) :
    ∀ w ∈ alternate rs, ∀ c ∈ w, isWs c = false := by
  induction h with
  | nil => intro w hw; simp [alternate] at hw
  | last w hww =>
    intro x hx
    rcases List.mem_singleton.mp (by simpa [alternate] using hx) with rfl
    exact hww
  | cons w s rest hww hs hrest ih =>
    intro x hx
    rw [show alternate (w :: s :: rest) = w :: alternate rest from rfl] at hx
    rcases List.mem_cons.mp hx with rfl | hx
    · exact hww
    · exact ih x hx

lemma ws_dichotomy_of_mem {rs : List (List Char)} (h : AltRuns rs) :
    ∀ piece ∈ rs, (∀ c ∈ piece, isWs c = false) ∨ (∀ c ∈ piece, isWs c = true) := by
  induction h with
  | nil => intro piece hp; simp at hp
  | last w hww =>
    intro piece hp
    rcases List.mem_singleton.mp hp with rfl
    exact Or.inl hww
  | cons w s rest hww hs hrest ih =>
    intro piece hp
    rcases List.mem_cons.mp hp with rfl | hp
    · exact Or.inl hww
    · rcases List.mem_cons.mp hp with rfl | hp
      · exact Or.inr hs
      · exact ih piece hp

lemma mem_dedupFirstGo {x : String} :
    ∀ (seen l : List String), x ∈ dedupFirstGo seen l → x ∈ l := by
  intro seen l
  induction l generalizing seen with
  | nil => intro h; simpa [dedupFirstGo] using h
  | cons y ys ih =>
    intro h
    simp only [dedupFirstGo] at h
    split at h
    · exact List.mem_cons_of_mem _ (ih _ h)
    · rcases List.mem_cons.mp h with rfl | h
      · exact List.mem_cons_self _ _
      · exact List.mem_cons_of_mem _ (ih _ h)

lemma consideredWords_no_ws (text : String) :
    ∀ w ∈ consideredWords text, ∀ c ∈ w.data, isWs c = false := by
  intro w hw
  unfold consideredWords at hw
  have hw2 := List.mem_of_mem_filter hw
  rcases List.mem_map.mp hw2 with ⟨piece, hp, rfl⟩
  unfold splitWsNoCapture at hp
  exact no_ws_of_mem_alternate (altRuns_splitWsCapture _) piece hp

lemma ne_phrases_of_no_ws {w : String}
    (h : ∀ c ∈ w.data, isWs c = false) :
    w ≠ "act now" ∧ w ≠ "buy now" := by
  constructor <;> intro he <;> subst he
  · have hm : Char.ofNat 32 ∈ ("act now" : String).data := by decide
    have h1 := h _ hm
    have h32 : isWs (Char.ofNat 32) = true := by decide
    rw [h1] at h32
    exact Bool.false_ne_true h32
  · have hm : Char.ofNat 32 ∈ ("buy now" : String).data := by decide
    have h1 := h _ hm
    have h32 : isWs (Char.ofNat 32) = true := by decide
    rw [h1] at h32
    exact Bool.false_ne_true h32

lemma mem_spam_iff_reduced {w : String} (h1 : w ≠ "act now")
    (h2 : w ≠ "buy now") :
    w ∈ SPAM_INDICATORS ↔ w ∈ SPAM_INDICATORS_reduced := by
  unfold SPAM_INDICATORS SPAM_INDICATORS_reduced
  simp only [List.mem_cons, List.not_mem_nil, or_false]
  tauto

lemma tokenEntry_reduced (text : String) (isSpam : Bool) (p : ℚ)
    (words : List String) {w : String}
    (h : ∀ c ∈ w.data, isWs c = false) :
    tokenEntry SPAM_INDICATORS_reduced text isSpam p words w
      = tokenEntry SPAM_INDICATORS text isSpam p words w := by
  rcases ne_phrases_of_no_ws h with ⟨h1, h2⟩
  have hiff := mem_spam_iff_reduced h1 h2
  unfold tokenEntry tokenRawImpactWith tokenImpactPreClamp
  by_cases hm : w ∈ SPAM_INDICATORS
  · rw [if_pos hm, if_pos (hiff.mp hm)]
  · rw [if_neg hm, if_neg (fun hh => hm (hiff.mpr hh))]

lemma isWs_toLower (c : Char) : isWs (jsToLower c) = isWs c := by
  unfold jsToLower
  split <;> first | rfl | decide

lemma mem_of_mem_jsTrim {l : List Char} {c : Char} (h : c ∈ jsTrim l) :
    c ∈ l := by
  unfold jsTrim at h
  rw [List.mem_reverse] at h
  have h2 := (List.dropWhile_sublist _).subset h
  rw [List.mem_reverse] at h2
  exact (List.dropWhile_sublist _).subset h2

lemma trimLower_no_ws {l : List Char} (h : ∀ c ∈ l, isWs c = false) :
    ∀ c ∈ (jsTrim l).map jsToLower, isWs c = false := by
  intro c hc
  rcases List.mem_map.mp hc with ⟨c0, hc0, rfl⟩
  rw [isWs_toLower]
  exact h c0 (mem_of_mem_jsTrim hc0)

lemma heatBaseImportance_congr (i : ℕ) {tw : String}
    (hiff : tw ∈ SPAM_INDICATORS ↔ tw ∈ SPAM_INDICATORS_reduced) :
    heatBaseImportance SPAM_INDICATORS_reduced i tw
      = heatBaseImportance SPAM_INDICATORS i tw := by
  unfold heatBaseImportance
  by_cases hm : tw ∈ SPAM_INDICATORS
  · rw [if_pos hm, if_pos (hiff.mp hm)]
  · rw [if_neg hm, if_neg (fun hh => hm (hiff.mpr hh))]

lemma heatIndicator_congr (isSpam : Bool) (p : ℚ) (i : ℕ) {tw : String}
    (hiff : tw ∈ SPAM_INDICATORS ↔ tw ∈ SPAM_INDICATORS_reduced) :
    heatIndicator SPAM_INDICATORS_reduced isSpam p i tw
      = heatIndicator SPAM_INDICATORS isSpam p i tw := by
  unfold heatIndicator
  by_cases hm : tw ∈ SPAM_INDICATORS
  · rw [if_pos hm, if_pos (hiff.mp hm)]
  · rw [if_neg hm, if_neg (fun hh => hm (hiff.mpr hh))]

lemma heatCore_congr (isSpam : Bool) (p : ℚ) (i : ℕ) {tw : String}
    (hiff : tw ∈ SPAM_INDICATORS ↔ tw ∈ SPAM_INDICATORS_reduced) :
    heatCore SPAM_INDICATORS_reduced isSpam p i tw
      = heatCore SPAM_INDICATORS isSpam p i tw := by
  unfold heatCore
  rw [heatBaseImportance_congr i hiff, heatIndicator_congr isSpam p i hiff]

lemma heatUnit_reduced (isSpam : Bool) (p : ℚ) (i : ℕ) {word : String}
    (h : (∀ c ∈ word.data, isWs c = false) ∨ (∀ c ∈ word.data, isWs c = true)) :
    heatUnit SPAM_INDICATORS_reduced isSpam p i word
      = heatUnit SPAM_INDICATORS isSpam p i word := by
  rcases h with h | h
  · have htw : ∀ c ∈ (String.mk ((jsTrim word.data).map jsToLower)).data,
        isWs c = false := trimLower_no_ws h
    rcases ne_phrases_of_no_ws htw with ⟨h1, h2⟩
    have hiff := mem_spam_iff_reduced h1 h2
    unfold heatUnit
    rw [heatCore_congr isSpam p i hiff]
  · have htrim : jsTrim word.data = [] :=
      jsTrim_nil_of_all_ws (List.all_eq_true.mpr h)
    unfold heatUnit
    rw [htrim]
    simp only [List.map_nil]
    rw [heatCore_short _ _ _ _ (by decide), heatCore_short _ _ _ _ (by decide)]

lemma mem_enumFromJS_snd {α : Type} :
    ∀ (i : ℕ) (l : List α) (x : ℕ × α), x ∈ enumFromJS i l → x.2 ∈ l := by
  intro i l
  induction l generalizing i with
  | nil => intro x h; simp [enumFromJS] at h
  | cons a t ih =>
    intro x h
    simp only [enumFromJS] at h
    rcases List.mem_cons.mp h with rfl | h
    · exact List.mem_cons_self _ _
    · exact List.mem_cons_of_mem _ (ih _ _ h)

lemma generateWordHeatmapWith_reduced (text : String) (isSpam : Bool) (p : ℚ) :
    generateWordHeatmapWith SPAM_INDICATORS_reduced text isSpam p
      = generateWordHeatmap text isSpam p := by
  unfold generateWordHeatmap generateWordHeatmapWith
  apply List.map_congr_left
  intro iw hiw
  have h2 := mem_enumFromJS_snd _ _ _ hiw
  rcases List.mem_map.mp h2 with ⟨piece, hp, hpe⟩
  have hd := ws_dichotomy_of_mem (altRuns_splitWsCapture text.data) piece hp
  have hd2 : (∀ c ∈ iw.2.data, isWs c = false) ∨
      (∀ c ∈ iw.2.data, isWs c = true) := by
    rw [← hpe]
    exact hd
  exact heatUnit_reduced isSpam p iw.1 hd2

lemma generateTokenImpactsWith_reduced (text : String) (isSpam : Bool)
    (p : ℚ) :
    generateTokenImpactsWith SPAM_INDICATORS_reduced text isSpam p
      = generateTokenImpacts text isSpam p := by
  unfold generateTokenImpacts generateTokenImpactsWith
  have hmap : (dedupFirst (consideredWords text)).map
      (tokenEntry SPAM_INDICATORS_reduced text isSpam p (consideredWords text))
      = (dedupFirst (consideredWords text)).map
        (tokenEntry SPAM_INDICATORS text isSpam p (consideredWords text)) := by
    apply List.map_congr_left
    intro w hw
    exact tokenEntry_reduced text isSpam p (consideredWords text)
      (consideredWords_no_ws text w (mem_dedupFirstGo _ _ hw))
  rw [hmap]

/-- Claim C8: the multi-word entries `"act now"` and `"buy now"` of
`SPAM_INDICATORS` are unreachable: no token of `generateTokenImpacts` and no
trimmed lower-cased heatmap unit ever equals them, and both functions are
extensionally unchanged when the two entries are removed from the
vocabulary. -/
theorem claim_C8_multiword_unreachable (text : String) (isSpam : Bool)
    (p : ℚ) :
    (∀ e ∈ generateTokenImpacts text isSpam p,
      e.token ≠ "act now" ∧ e.token ≠ "buy now") ∧
    (∀ u ∈ generateWordHeatmap text isSpam p,
      String.mk ((jsTrim u.text.data).map jsToLower) ≠ "act now" ∧
      String.mk ((jsTrim u.text.data).map jsToLower) ≠ "buy now") ∧
    generateTokenImpactsWith SPAM_INDICATORS_reduced text isSpam p
      = generateTokenImpacts text isSpam p ∧
    generateWordHeatmapWith SPAM_INDICATORS_reduced text isSpam p
      = generateWordHeatmap text isSpam p := by
  refine ⟨?_, ?_, generateTokenImpactsWith_reduced text isSpam p,
    generateWordHeatmapWith_reduced text isSpam p⟩
  · intro e he
    rcases mem_generateTokenImpactsWith _ _ _ _ _ he with ⟨w, hw, rfl⟩
    exact ne_phrases_of_no_ws
      (consideredWords_no_ws text w (mem_dedupFirstGo _ _ hw))
  · intro u hu
    unfold generateWordHeatmap generateWordHeatmapWith at hu
    rcases List.mem_map.mp hu with ⟨iw, hiw, rfl⟩
    rw [heatUnit_text]
    have h2 := mem_enumFromJS_snd _ _ _ hiw
    rcases List.mem_map.mp h2 with ⟨piece, hp, hpe⟩
    have hd := ws_dichotomy_of_mem (altRuns_splitWsCapture text.data) piece hp
    rcases hd with h | h
    · apply ne_phrases_of_no_ws
      have hws : ∀ c ∈ iw.2.data, isWs c = false := by
        rw [← hpe]
        exact h
      exact trimLower_no_ws hws
    · have hws : ∀ c ∈ iw.2.data, isWs c = true := by
        rw [← hpe]
        exact h
      have htrim : jsTrim iw.2.data = [] :=
        jsTrim_nil_of_all_ws (List.all_eq_true.mpr hws)
      rw [htrim]
      simp only [List.map_nil]
      exact ⟨by decide, by decide⟩

set_option maxRecDepth 100000 in
unseal Rat.add Rat.mul Rat.sub Rat.inv in
/-- Witness for claim C8 at a concrete input. -/
theorem claim_C8_multiword_unreachable_witness :
    ((⟨"free", 189 / 1000, 148 / 5⟩ : TokenImpact)
        ∈ generateTokenImpacts "free" true (1 / 2) ∧
      (⟨"free", 0, 1, true⟩ : HeatmapUnit)
        ∈ generateWordHeatmap "free" true (1 / 2)) ∧
    ((⟨"free", 189 / 1000, 148 / 5⟩ : TokenImpact).token ≠ "act now" ∧
      (⟨"free", 189 / 1000, 148 / 5⟩ : TokenImpact).token ≠ "buy now") ∧
    (String.mk ((jsTrim (HeatmapUnit.text ⟨"free", 0, 1, true⟩).data).map
        jsToLower) ≠ "act now" ∧
      String.mk ((jsTrim (HeatmapUnit.text ⟨"free", 0, 1, true⟩).data).map
        jsToLower) ≠ "buy now") :=
  ⟨⟨by decide, by decide⟩,
   (claim_C8_multiword_unreachable "free" true (1 / 2)).1
     ⟨"free", 189 / 1000, 148 / 5⟩ (by decide),
   (claim_C8_multiword_unreachable "free" true (1 / 2)).2.1
     ⟨"free", 0, 1, true⟩ (by decide)⟩

/-! ## The lookup-faithful token pipeline -/

lemma mem_insertJS {α : Type} (cmp : α → α → ℚ) (x z : α) :
    ∀ l : List α, z ∈ insertJS cmp x l → z = x ∨ z ∈ l := by
  intro l
  induction l with
  | nil =>
    intro h
    exact Or.inl (List.mem_singleton.mp h)
  | cons y ys ih =>
    intro h
    rw [insertJS] at h
    split at h
    · rcases List.mem_cons.mp h with h | h
      · exact Or.inl h
      · exact Or.inr h
    · simp only [List.mem_cons] at h
      rcases h with h | h
      · right
        simp [h]
      · rcases ih h with h | h
        · exact Or.inl h
        · right
          simp [h]

lemma mem_sortJS {α : Type} (cmp : α → α → ℚ) (z : α) :
    ∀ l : List α, z ∈ sortJS cmp l → z ∈ l := by
  intro l
  induction l with
  | nil => intro h; simpa [sortJS] using h
  | cons x xs ih =>
    intro h
    rw [sortJS] at h
    rcases mem_insertJS cmp x z _ h with h | h
    · simp [h]
    · simp [ih h]

lemma mem_generateTokenImpactsJS (text : String) (isSpam : Bool) (p : ℚ)
    (e : TokenImpactJS) (h : e ∈ generateTokenImpactsJS text isSpam p) :
    ∃ w, w ∈ dedupFirst (consideredWords text) ∧
      e = tokenEntryJS SPAM_INDICATORS text isSpam p (consideredWords text) w := by
  unfold generateTokenImpactsJS at h
  have h1 := List.take_subset _ _ h
  have h2 := mem_sortJS _ _ _ h1
  rcases List.mem_map.mp h2 with ⟨w, hw, he⟩
  exact ⟨w, hw, he.symm⟩

lemma jsWordFreq_eq_count {words : List String} {w : String}
    (h1 : w ≠ "constructor") (h2 : w ≠ "__proto__") :
    jsWordFreq words w = some ((words.count w : ℕ) : ℚ) := by
  have hm : w ∉ protoTokens := by
    simp only [protoTokens, List.mem_cons, List.not_mem_nil, or_false]
    rintro (rfl | rfl)
    · exact h1 rfl
    · exact h2 rfl
  unfold jsWordFreq
  rw [if_neg hm]

lemma jsWordFreq_none {words : List String} {w : String}
    (h : jsWordFreq words w = none) :
    w = "constructor" ∨ w = "__proto__" := by
  unfold jsWordFreq at h
  by_cases hm : w ∈ protoTokens
  · simpa [protoTokens] using hm
  · rw [if_neg hm] at h
    exact Option.noConfusion h

lemma tokenImpactPreClampJS_none {spam : List String} {text : String}
    {isSpam : Bool} {p : ℚ} {words : List String} {w : String}
    (h : tokenImpactPreClampJS spam text isSpam p words w = none) :
    jsWordFreq words w = none := by
  unfold tokenImpactPreClampJS at h
  by_cases hs : w ∈ spam
  · rw [if_pos hs] at h
    exact Option.noConfusion h
  · by_cases hh : w ∈ HAM_INDICATORS
    · rw [if_neg hs, if_pos hh] at h
      exact Option.noConfusion h
    · rw [if_neg hs, if_neg hh] at h
      cases hjw : jsWordFreq words w with
      | none => rfl
      | some cnt =>
        rw [hjw] at h
        exact Option.noConfusion h

lemma tokenRawImpactJS_some_bounds {spam : List String} {text : String}
    {isSpam : Bool} {p : ℚ} {words : List String} {w : String} {r : ℚ}
    (h : tokenRawImpactJS spam text isSpam p words w = some r) :
    -(3 / 10) ≤ r ∧ r ≤ 3 / 10 := by
  unfold tokenRawImpactJS at h
  cases hpre : tokenImpactPreClampJS spam text isSpam p words w with
  | none =>
    rw [hpre] at h
    exact Option.noConfusion h
  | some q =>
    rw [hpre, Option.map_some'] at h
    rw [← Option.some.inj h]
    exact ⟨le_max_left _ _, max_le (by norm_num) (min_le_left _ _)⟩

lemma tokenEntryJS_lift (spam : List String) (text : String) (isSpam : Bool)
    (p : ℚ) (words : List String) {w : String}
    (h1 : w ≠ "constructor") (h2 : w ≠ "__proto__") :
    tokenEntryJS spam text isSpam p words w
      = liftEntry (tokenEntry spam text isSpam p words w) := by
  unfold tokenEntryJS tokenEntry liftEntry tokenRawImpactJS tokenRawWeightJS
    tokenImpactPreClampJS tokenRawImpactWith tokenImpactPreClamp tokenRawWeight
  rw [jsWordFreq_eq_count h1 h2]
  split_ifs <;> rfl

lemma insertJS_lift (x : TokenImpact) (l : List TokenImpact) :
    insertJS jsSortCompare (liftEntry x) (l.map liftEntry)
      = (insertD (fun e => |e.impact|) x l).map liftEntry := by
  induction l with
  | nil => rfl
  | cons y ys ih =>
    simp only [List.map_cons, insertJS, insertD]
    have hc : jsSortCompare (liftEntry x) (liftEntry y)
        = |y.impact| - |x.impact| := rfl
    by_cases h : |y.impact| ≤ |x.impact|
    · rw [if_pos (by rw [hc]; linarith), if_pos h]
      simp [List.map_cons]
    · rw [if_neg (by rw [hc]; intro hle; exact h (by linarith)), if_neg h]
      simp [List.map_cons, ih]

lemma sortJS_lift (l : List TokenImpact) :
    sortJS jsSortCompare (l.map liftEntry)
      = (sortD (fun e => |e.impact|) l).map liftEntry := by
  induction l with
  | nil => rfl
  | cons x xs ih =>
    simp only [List.map_cons, sortJS, sortD]
    rw [ih, insertJS_lift]

/-- On inputs whose considered tokens exclude the two `Object.prototype`
names, the lookup-faithful pipeline agrees with the idealised one. -/
lemma generateTokenImpactsJS_lift (text : String) (isSpam : Bool) (p : ℚ)
    (h1 : "constructor" ∉ consideredWords text)
    (h2 : "__proto__" ∉ consideredWords text) :
    generateTokenImpactsJS text isSpam p
      = (generateTokenImpacts text isSpam p).map liftEntry := by
  unfold generateTokenImpactsJS generateTokenImpacts generateTokenImpactsWith
  have hmap : (dedupFirst (consideredWords text)).map
      (tokenEntryJS SPAM_INDICATORS text isSpam p (consideredWords text))
      = ((dedupFirst (consideredWords text)).map
        (tokenEntry SPAM_INDICATORS text isSpam p (consideredWords text))).map
          liftEntry := by
    rw [List.map_map]
    apply List.map_congr_left
    intro w hw
    have hwm := mem_dedupFirstGo _ _ hw
    exact tokenEntryJS_lift SPAM_INDICATORS text isSpam p (consideredWords text)
      (fun he => h1 (he ▸ hwm)) (fun he => h2 (he ▸ hwm))
  rw [hmap, sortJS_lift, List.map_take]

lemma generateTokenImpactsJS_sorted_of_no_proto (text : String)
    (isSpam : Bool) (p : ℚ)
    (h1 : "constructor" ∉ consideredWords text)
    (h2 : "__proto__" ∉ consideredWords text) :
    (generateTokenImpactsJS text isSpam p).Pairwise
      (fun a b => ∀ x y, a.impact = some x → b.impact = some y → |y| ≤ |x|) := by
  rw [generateTokenImpactsJS_lift text isSpam p h1 h2, List.pairwise_map]
  refine (generateTokenImpactsWith_sorted SPAM_INDICATORS text isSpam p).imp ?_
  intro a b hab x y hx hy
  cases Option.some.inj hx
  cases Option.some.inj hy
  exact hab

/-- Claim C4, amended: `generateTokenImpacts` always returns at most 15
entries; on every input whose considered tokens include no lower-case
`Object.prototype` property name (`"constructor"`, `"__proto__"`), the
entries are sorted in descending order of the absolute value of their
impact.  (On inputs containing such a token the corresponding entry's impact
is the non-numeric `"NaN"` and the output need not be sorted.) -/
theorem claim_C4_top15_sorted (text : String) (isSpam : Bool) (p : ℚ) :
    (generateTokenImpactsJS text isSpam p).length ≤ 15 ∧
    ("constructor" ∉ consideredWords text → "__proto__" ∉ consideredWords text →
      (generateTokenImpactsJS text isSpam p).Pairwise
        (fun a b => ∀ x y, a.impact = some x → b.impact = some y → |y| ≤ |x|)) := by
  constructor
  · unfold generateTokenImpactsJS
    simpa using List.length_take_le 15 _
  · exact generateTokenImpactsJS_sorted_of_no_proto text isSpam p

set_option maxRecDepth 400000 in
unseal Rat.add Rat.mul Rat.sub Rat.inv in
/-- Counterexample for claim C4 as stated: on `"constructor winner"` the
`wordFreq` lookup for `"constructor"` hits `Object.prototype`, the entry's
impact is the string `"NaN"` (modelled `none`), the comparator ties on it,
and the stable sort leaves the NaN entry ahead of the numeric `"winner"`
entry — the output is not in descending order of absolute impact. -/
theorem claim_C4_top15_sorted_counterexample :
    generateTokenImpactsJS "constructor winner" true (9 / 10)
      = [⟨"constructor", none, none⟩,
         ⟨"winner", some (59 / 250), some 53⟩] ∧
    ¬ (generateTokenImpactsJS "constructor winner" true (9 / 10)).Pairwise
        (fun a b => ∃ x y, a.impact = some x ∧ b.impact = some y ∧ |y| ≤ |x|) := by
  have heq : generateTokenImpactsJS "constructor winner" true (9 / 10)
      = [⟨"constructor", none, none⟩,
         ⟨"winner", some (59 / 250), some 53⟩] := by decide
  refine ⟨heq, ?_⟩
  intro hp
  rw [heq] at hp
  rcases List.pairwise_cons.mp hp with ⟨hrel, _⟩
  rcases hrel ⟨"winner", some (59 / 250), some 53⟩ (by simp) with
    ⟨x, y, hx, _, _⟩
  exact Option.noConfusion hx

set_option maxRecDepth 100000 in
unseal Rat.add Rat.mul Rat.sub Rat.inv in
/-- Witness for the amended claim C4 at a concrete input. -/
theorem claim_C4_top15_sorted_witness :
    (("constructor" ∉ consideredWords "free") ∧
      ("__proto__" ∉ consideredWords "free")) ∧
    ((generateTokenImpactsJS "free" true (1 / 2)).length ≤ 15 ∧
      (generateTokenImpactsJS "free" true (1 / 2)).Pairwise
        (fun a b => ∀ x y, a.impact = some x → b.impact = some y → |y| ≤ |x|)) :=
  ⟨⟨by decide, by decide⟩,
   ⟨(claim_C4_top15_sorted "free" true (1 / 2)).1,
    (claim_C4_top15_sorted "free" true (1 / 2)).2 (by decide) (by decide)⟩⟩

/-- Claim C5, amended: every impact of `generateTokenImpacts` that is a
number lies in `[-0.3, 0.3]`; an entry's impact is the non-numeric `"NaN"`
only for the tokens `"constructor"` and `"__proto__"`, whose `wordFreq`
lookup hits `Object.prototype`.  Every importance of `generateWordHeatmap`
lies in `[0, 1]`. -/
theorem claim_C5_value_ranges (text : String) (isSpam : Bool) (p : ℚ) :
    (∀ e ∈ generateTokenImpactsJS text isSpam p,
      (∀ q, e.impact = some q → -(3 / 10) ≤ q ∧ q ≤ 3 / 10) ∧
      (e.impact = none → e.token = "constructor" ∨ e.token = "__proto__")) ∧
    (∀ u ∈ generateWordHeatmap text isSpam p,
      0 ≤ u.importance ∧ u.importance ≤ 1) := by
  constructor
  · intro e he
    rcases mem_generateTokenImpactsJS _ _ _ _ he with ⟨w, _, rfl⟩
    constructor
    · intro q hq
      simp only [tokenEntryJS] at hq
      cases hraw : tokenRawImpactJS SPAM_INDICATORS text isSpam p
        (consideredWords text) w with
      | none =>
        rw [hraw] at hq
        exact Option.noConfusion hq
      | some r =>
        rw [hraw, Option.map_some'] at hq
        rw [← Option.some.inj hq]
        rcases tokenRawImpactJS_some_bounds hraw with ⟨hb1, hb2⟩
        exact toFixed3_bounds hb1 hb2
    · intro hnone
      simp only [tokenEntryJS] at hnone
      rw [Option.map_eq_none'] at hnone
      unfold tokenRawImpactJS at hnone
      rw [Option.map_eq_none'] at hnone
      exact jsWordFreq_none (tokenImpactPreClampJS_none hnone)
  · intro u hu
    rcases mem_generateWordHeatmapWith _ _ _ _ _ hu with ⟨i, w, rfl⟩
    exact heatCore_importance_bounds _ _ _ _ _

set_option maxRecDepth 100000 in
unseal Rat.add Rat.mul Rat.sub Rat.inv in
/-- Counterexample for claim C5 as stated: on the input `"constructor"` the
single returned entry's impact is the string `"NaN"`, which does not lie in
`[-0.3, 0.3]`. -/
theorem claim_C5_value_ranges_counterexample :
    ¬ (∀ e ∈ generateTokenImpactsJS "constructor" true (9 / 10),
        ∃ q, e.impact = some q ∧ -(3 / 10) ≤ q ∧ q ≤ 3 / 10) := by
  intro h
  rcases h ⟨"constructor", none, none⟩ (by decide) with ⟨q, hq, _⟩
  exact Option.noConfusion hq

set_option maxRecDepth 100000 in
unseal Rat.add Rat.mul Rat.sub Rat.inv in
/-- Witness for the amended claim C5 at a concrete input. -/
theorem claim_C5_value_ranges_witness :
    ((⟨"free", some (189 / 1000), some (148 / 5)⟩ : TokenImpactJS)
        ∈ generateTokenImpactsJS "free" true (1 / 2) ∧
      (⟨"free", some (189 / 1000), some (148 / 5)⟩ : TokenImpactJS).impact
        = some (189 / 1000)) ∧
    (-(3 / 10) ≤ ((189 : ℚ) / 1000) ∧ ((189 : ℚ) / 1000) ≤ 3 / 10) :=
  ⟨⟨by decide, rfl⟩,
   ((claim_C5_value_ranges "free" true (1 / 2)).1
     ⟨"free", some (189 / 1000), some (148 / 5)⟩ (by decide)).1
     (189 / 1000) rfl⟩

set_option maxRecDepth 400000 in
unseal Rat.add Rat.mul Rat.sub Rat.inv in
/-- Claim C10, amended: every numeric `impact`/`weight` field is the
fixed-point decimal value of `toFixed(3)` / `toFixed(2)` of the raw impact
and weight (so `1000 * impact` and `100 * weight` are integers); for the two
`Object.prototype`-name tokens the fields are the string `"NaN"`.  On inputs
free of those tokens the output is sorted by the absolute value of the
3-decimal-rounded impact — and at the concrete input `"aaa edb"` it is not
in descending order of the unrounded impacts, showing the sort compares the
rounded values. -/
theorem claim_C10_fixed_point_sort :
    (∀ (text : String) (isSpam : Bool) (p : ℚ),
      (∀ e ∈ generateTokenImpactsJS text isSpam p,
        (∀ q, e.impact = some q →
          ∃ r, tokenRawImpactJS SPAM_INDICATORS text isSpam p
              (consideredWords text) e.token = some r ∧
            q = toFixed3 r ∧ (1000 * q).den = 1) ∧
        (∀ q, e.weight = some q →
          ∃ r, tokenRawWeightJS text (consideredWords text) e.token = some r ∧
            q = toFixed2 r ∧ (100 * q).den = 1)) ∧
      ("constructor" ∉ consideredWords text →
        "__proto__" ∉ consideredWords text →
        (generateTokenImpactsJS text isSpam p).Pairwise
          (fun a b => ∀ x y, a.impact = some x → b.impact = some y →
            |y| ≤ |x|))) ∧
    ((generateTokenImpactsJS "aaa edb" true (1 / 2)).map TokenImpactJS.token
        = ["aaa", "edb"] ∧
      tokenRawImpactJS SPAM_INDICATORS "aaa edb" true (1 / 2)
        (consideredWords "aaa edb") "aaa" = some (-(1163 / 25000)) ∧
      tokenRawImpactJS SPAM_INDICATORS "aaa edb" true (1 / 2)
        (consideredWords "aaa edb") "edb" = some (1171 / 25000) ∧
      |(-(1163 : ℚ) / 25000)| < |((1171 : ℚ) / 25000)|) := by
  constructor
  · intro text isSpam p
    constructor
    · intro e he
      rcases mem_generateTokenImpactsJS _ _ _ _ he with ⟨w, _, rfl⟩
      constructor
      · intro q hq
        simp only [tokenEntryJS] at hq
        cases hraw : tokenRawImpactJS SPAM_INDICATORS text isSpam p
          (consideredWords text) w with
        | none =>
          rw [hraw] at hq
          exact Option.noConfusion hq
        | some r =>
          rw [hraw, Option.map_some'] at hq
          refine ⟨r, hraw, (Option.some.inj hq).symm, ?_⟩
          rw [← Option.some.inj hq]
          exact mul_toFixed3_den r
      · intro q hq
        simp only [tokenEntryJS] at hq
        cases hraw : tokenRawWeightJS text (consideredWords text) w with
        | none =>
          rw [hraw] at hq
          exact Option.noConfusion hq
        | some r =>
          rw [hraw, Option.map_some'] at hq
          refine ⟨r, hraw, (Option.some.inj hq).symm, ?_⟩
          rw [← Option.some.inj hq]
          exact mul_toFixed2_den r
    · exact generateTokenImpactsJS_sorted_of_no_proto text isSpam p
  · exact ⟨by decide, by decide, by decide, by decide⟩

set_option maxRecDepth 100000 in
unseal Rat.add Rat.mul Rat.sub Rat.inv in
/-- Counterexample for claim C10 as stated: on the input `"constructor"` the
returned entry carries `"NaN"` for both impact and weight — not fixed-point
decimal strings. -/
theorem claim_C10_fixed_point_sort_counterexample :
    ¬ (∀ e ∈ generateTokenImpactsJS "constructor" true (9 / 10),
        ∃ q w, e.impact = some q ∧ e.weight = some w ∧
          (1000 * q).den = 1 ∧ (100 * w).den = 1) := by
  intro h
  rcases h ⟨"constructor", none, none⟩ (by decide) with ⟨q, w, hq, _, _⟩
  exact Option.noConfusion hq

set_option maxRecDepth 100000 in
unseal Rat.add Rat.mul Rat.sub Rat.inv in
/-- Witness for the amended claim C10 at a concrete input. -/
theorem claim_C10_fixed_point_sort_witness :
    ((⟨"free", some (189 / 1000), some (148 / 5)⟩ : TokenImpactJS)
        ∈ generateTokenImpactsJS "free" true (1 / 2) ∧
      (⟨"free", some (189 / 1000), some (148 / 5)⟩ : TokenImpactJS).impact
        = some (189 / 1000)) ∧
    (∃ r, tokenRawImpactJS SPAM_INDICATORS "free" true (1 / 2)
        (consideredWords "free")
        (⟨"free", some (189 / 1000), some (148 / 5)⟩ : TokenImpactJS).token
          = some r ∧
      (189 : ℚ) / 1000 = toFixed3 r ∧ (1000 * ((189 : ℚ) / 1000)).den = 1) :=
  ⟨⟨by decide, rfl⟩,
   ((claim_C10_fixed_point_sort.1 "free" true (1 / 2)).1
     ⟨"free", some (189 / 1000), some (148 / 5)⟩ (by decide)).1
     (189 / 1000) rfl⟩

end ShieldMail
